import Mathlib

/-!
Verification of the synthetic charity data generator
(`synthetic_charity_dataset.py` and `synthetic_charity_dataset_fix_attempt3.py`)
against its natural-language specification.

The Python scripts are shallowly embedded below: calendar dates become the
`MDate` structure ordered the way Python compares `datetime.date` values
(lexicographically on year/month/day, equivalently by proleptic Gregorian
ordinal), pre-rounding dollar amounts become exact rationals, Python's
banker's rounding becomes `pyRound`, random draws become explicit parameters
or streams, and dataframe passes become list transformations carrying the
positional index that pandas exposes as `row.name`.
-/

namespace Charity

/-- A calendar date as Python's `datetime.date` triple. -/
structure MDate where
  year : Nat
  month : Nat
  day : Nat
deriving DecidableEq, Repr

/-- Python's `date <= date` comparison: lexicographic on (year, month, day). -/
def dateLe (a b : MDate) : Prop :=
  a.year < b.year ∨ (a.year = b.year ∧
    (a.month < b.month ∨ (a.month = b.month ∧ a.day ≤ b.day)))

instance (a b : MDate) : Decidable (dateLe a b) := by
  unfold dateLe; infer_instance

/-- `end_date = date(2025, 12, 31)` (both script variants). -/
def sim_end : MDate := ⟨2025, 12, 31⟩

/-- `start_date = date(2021, 1, 1)` (original script). -/
def sim_start : MDate := ⟨2021, 1, 1⟩

/-- `start_date = date(2016, 1, 1)` (`fix_attempt3` variant). -/
def sim_start_fix3 : MDate := ⟨2016, 1, 1⟩

/-- `date(y, mo, 1) + pd.DateOffset(months=m)`: month arithmetic with
carry into the year; the day component (always 1 here) is preserved. -/
def addMonths (d : MDate) (m : Nat) : MDate :=
  ⟨d.year + (d.month - 1 + m) / 12, (d.month - 1 + m) % 12 + 1, d.day⟩

/-- `(end_date.year - start_dt.year) * 12 + (end_date.month - start_dt.month) + 1`
from the regular-donor loop. -/
def max_possible_months (startD endD : MDate) : Int :=
  ((endD.year : Int) - startD.year) * 12 + ((endD.month : Int) - startD.month) + 1

/-- Python 3's built-in `round` on a rational: round half to even. -/
def pyRound (q : ℚ) : ℤ :=
  if q - ⌊q⌋ < 1/2 then ⌊q⌋
  else if 1/2 < q - ⌊q⌋ then ⌊q⌋ + 1
  else if ⌊q⌋ % 2 = 0 then ⌊q⌋ else ⌊q⌋ + 1

/-- `round_amount(amount, base) = int(base * round(amount/base))`. -/
def round_amount (amount : ℚ) (base : ℕ) : ℤ :=
  base * pyRound (amount / base)

/-- The denomination base selected by the rounding chain
(`>= 1000` → 500, `>= 100` → 50, else 5). -/
def denomBase (amount : ℚ) : ℕ :=
  if 1000 ≤ amount then 500 else if 100 ≤ amount then 50 else 5

/-- The rounding chain applied to every one-off amount:
`round_amount(a,500)` if `a >= 1000`, `round_amount(a,50)` if `a >= 100`,
else `round_amount(a,5)`. -/
def denomRound (amount : ℚ) : ℤ :=
  if 1000 ≤ amount then round_amount amount 500
  else if 100 ≤ amount then round_amount amount 50
  else round_amount amount 5

/-- Major-donor cap: `if amount > 50000: amount = np.random.uniform(20000, 50000)`;
`repl` stands for the replacement uniform draw. -/
def capMajor (draw repl : ℚ) : ℚ := if 50000 < draw then repl else draw

/-- Major-donor amount: `np.random.pareto(a=1.2) * 500 + 1000`, then the cap;
`p` stands for the Pareto draw and `u` for the replacement uniform draw. -/
def majorAmount (p u : ℚ) : ℚ := capMajor (p * 500 + 1000) u

/-- General-donor cap: `if amount > 1000: amount = np.random.uniform(500, 1000)`. -/
def capGeneral (draw repl : ℚ) : ℚ := if 1000 < draw then repl else draw

/-- General-donor amount: `np.random.pareto(a=3.0) * 75 + 25`, then the cap. -/
def generalAmount (p u : ℚ) : ℚ := capGeneral (p * 75 + 25) u

/-- `major_prob = 0.001 + (age / 100) * 0.05`. -/
def major_prob (age : Nat) : ℚ := 1/1000 + ((age : ℚ) / 100) * (5/100)

/-- `reg_prob = 0.40 - (age / 100) * 0.30` (note: the code applies no clamp). -/
def reg_prob (age : Nat) : ℚ := 2/5 - ((age : ℚ) / 100) * (3/10)

/-- The day-of-month upper bound drawn by `get_weighted_random_date`:
28 for February, 30 for the four 30-day months, else 31 (leap years are
deliberately ignored by the generator when drawing days). -/
def seasonalDayMax (m : Nat) : Nat :=
  if m = 2 then 28 else if m = 4 ∨ m = 6 ∨ m = 9 ∨ m = 11 then 30 else 31

/-- Gregorian leap-year test (as used by Python's `datetime`). -/
def isLeap (y : Nat) : Bool :=
  (y % 4 == 0 && !(y % 100 == 0)) || (y % 400 == 0)

/-- Days in year `y` strictly before month `m` (Gregorian calendar, as
implemented by Python's `datetime.date`). -/
def daysBeforeMonth (y m : Nat) : Nat :=
  match m with
  | 1 => 0
  | 2 => 31
  | 3 => 59 + (if isLeap y then 1 else 0)
  | 4 => 90 + (if isLeap y then 1 else 0)
  | 5 => 120 + (if isLeap y then 1 else 0)
  | 6 => 151 + (if isLeap y then 1 else 0)
  | 7 => 181 + (if isLeap y then 1 else 0)
  | 8 => 212 + (if isLeap y then 1 else 0)
  | 9 => 243 + (if isLeap y then 1 else 0)
  | 10 => 273 + (if isLeap y then 1 else 0)
  | 11 => 304 + (if isLeap y then 1 else 0)
  | 12 => 334 + (if isLeap y then 1 else 0)
  | _ => 0

/-- Days strictly before January 1 of year `y` (proleptic Gregorian). -/
def daysBeforeYear (y : Nat) : Nat :=
  (y - 1) * 365 + (y - 1) / 4 - (y - 1) / 100 + (y - 1) / 400

/-- Python's `date.toordinal()`: chronological day number, so that date
comparison and `Timedelta` day arithmetic are ordinary `Nat` operations. -/
def toOrdinal (d : MDate) : Nat :=
  daysBeforeYear d.year + daysBeforeMonth d.year d.month + d.day

/-- A calendar-valid date whose year lies in the `fix_attempt3` horizon
years `2016..2025`, with the day bound used by the generator's date draw. -/
def validInHorizon (d : MDate) : Prop :=
  2016 ≤ d.year ∧ d.year ≤ 2025 ∧ 1 ≤ d.month ∧ d.month ≤ 12 ∧
    1 ≤ d.day ∧ d.day ≤ seasonalDayMax d.month

instance (d : MDate) : Decidable (validInHorizon d) := by
  unfold validInHorizon; infer_instance

/-- The `fix_attempt3` loyalty-branch close date, at the ordinal-day level:
`if close_date < acq: close_date = acq + Timedelta(days=k)` when
`days_diff = (end - acq).days > 0`, else pinned to the acquisition date;
otherwise the seasonal draw stands. -/
def fix3CloseOrd (seasonal acq : MDate) (k : Nat) : Nat :=
  if toOrdinal seasonal < toOrdinal acq then
    if 0 < toOrdinal sim_end - toOrdinal acq then toOrdinal acq + k
    else toOrdinal acq
  else toOrdinal seasonal

/-- The churn loop `for m in range(2, max_possible_months + 1)` with the
running `months_stayed` accumulator; `churn m` stands for the Boolean draw
`random.random() < 0.15 / (1 + np.log(m-1))` at candidate month `m`. -/
def churnGo (churn : Nat → Bool) : Nat → Nat → Nat → Nat
  | 0, acc, _ => acc
  | fuel + 1, acc, m => if churn m then acc else churnGo churn fuel m (m + 1)

/-- `months_stayed` as computed per regular donor: start at 1, then iterate
candidate months `2 .. max_possible_months`. -/
def months_stayed (maxM : Int) (churn : Nat → Bool) : Nat :=
  churnGo churn (maxM - 1).toNat 1 2

/-- The regular-transaction expansion dates: `for m in range(months):
tx_date = start + DateOffset(months=m); if tx_date <= end_date: append`. -/
def rgExpand (startD : MDate) (months : Nat) (endD : MDate) : List MDate :=
  (List.range months).filterMap (fun m =>
    if dateLe (addMonths startD m) endD then some (addMonths startD m) else none)

/-- A row of the merged opportunity table `df_opps`. Regular-stream rows
carry `type = some "Regular"` and no `is_major_gift` value; one-off rows
carry no `type` value (the column exists only in `df_rg`, so `pd.concat`
fills `NaN`, modelled as `none`) and a Boolean `is_major_gift`. `campaign`
is `none` until the campaign pass runs. -/
structure TxRow where
  opportunity_id : String
  contact_id : String
  close_date : MDate
  amount : Int
  stage : String
  type : Option String
  is_major_gift : Option Bool
  campaign : Option String
deriving DecidableEq, Repr

/-- `assign_campaign(row, unsolicited_random_indices)`: the ordered
first-match-wins cascade; `sampled` stands for
`row.name in unsolicited_random_indices`. `NaN` fields compare unequal to
everything, exactly as `none` does here. -/
def assign_campaign (row : TxRow) (sampled : Bool) : String :=
  if row.type = some "Regular" then "Regular Giving"
  else if sampled then "Unsolicited"
  else if row.is_major_gift = some true then "Major Giving"
  else if row.close_date.month = 5 ∨ row.close_date.month = 6 ∨
      (row.close_date.month = 7 ∧ row.close_date.day ≤ 15) then "Tax Appeal"
  else if row.close_date.month = 11 ∨ row.close_date.month = 12 ∨
      (row.close_date.month = 1 ∧ row.close_date.day ≤ 15) then "Christmas Appeal"
  else if (row.close_date.month = 9 ∧ 16 ≤ row.close_date.day) ∨
      (row.close_date.month = 10 ∧ row.close_date.day ≤ 15) then "Spring Newsletter"
  else if (row.close_date.month = 3 ∧ 16 ≤ row.close_date.day) ∨
      (row.close_date.month = 4 ∧ row.close_date.day ≤ 15) then "Autumn Newsletter"
  else "Unsolicited"

/-- Within-year (month, day) order, for stating the campaign windows the
way the spec states them, as date-interval membership. -/
def mdLe (m1 d1 m2 d2 : Nat) : Prop := m1 < m2 ∨ (m1 = m2 ∧ d1 ≤ d2)

instance (m1 d1 m2 d2 : Nat) : Decidable (mdLe m1 d1 m2 d2) := by
  unfold mdLe; infer_instance

/-- Membership of (m, d) in the closed within-year window from
(lom, lod) to (him, hid). -/
def inWindow (m d lom lod him hid : Nat) : Prop :=
  mdLe lom lod m d ∧ mdLe m d him hid

instance (m d lom lod him hid : Nat) : Decidable (inWindow m d lom lod him hid) := by
  unfold inWindow; infer_instance

/-- The classifier cascade as the specification words it: the same rule
order, with the date rules phrased as window membership — `[May 1, Jul 15]`,
`[Nov 1, Jan 15]` (wrapping the year end), `[Sep 16, Oct 15]`,
`[Mar 16, Apr 15]`. -/
def assignCampaignSpec (row : TxRow) (sampled : Bool) : String :=
  if row.type = some "Regular" then "Regular Giving"
  else if sampled then "Unsolicited"
  else if row.is_major_gift = some true then "Major Giving"
  else if inWindow row.close_date.month row.close_date.day 5 1 7 15 then
    "Tax Appeal"
  else if mdLe 11 1 row.close_date.month row.close_date.day ∨
      mdLe row.close_date.month row.close_date.day 1 15 then "Christmas Appeal"
  else if inWindow row.close_date.month row.close_date.day 9 16 10 15 then
    "Spring Newsletter"
  else if inWindow row.close_date.month row.close_date.day 3 16 4 15 then
    "Autumn Newsletter"
  else "Unsolicited"

/-- The seven campaign labels the classifier can produce. -/
def campaignLabels : List String :=
  ["Regular Giving", "Unsolicited", "Major Giving", "Tax Appeal",
   "Christmas Appeal", "Spring Newsletter", "Autumn Newsletter"]

/-- `df_opps.apply(lambda x: assign_campaign(x, unsolicited_indices), axis=1)`
materialised recursively: `idx` is the positional index (`row.name`) of the
first row of the remaining list. -/
def applyCampaignFrom (unsol : List Nat) (idx : Nat) : List TxRow → List TxRow
  | [] => []
  | r :: rs =>
    { r with campaign := some (assign_campaign r (unsol.contains idx)) } ::
      applyCampaignFrom unsol (idx + 1) rs

/-- The campaign-column assignment over the whole merged table. -/
def applyCampaign (rows : List TxRow) (unsol : List Nat) : List TxRow :=
  applyCampaignFrom unsol 0 rows

/-- `df_opps["is_major_gift"] = df_opps["is_major_gift"].astype("boolean").fillna(False)`. -/
def fillnaMajor (rows : List TxRow) : List TxRow :=
  rows.map (fun r => { r with is_major_gift := some (r.is_major_gift.getD false) })

/-- The whole late pass on `df_opps` (campaign assignment, then the
`is_major_gift` fill). -/
def campaignPass (rows : List TxRow) (unsol : List Nat) : List TxRow :=
  fillnaMajor (applyCampaign rows unsol)

/-- `df_opps[df_opps['type'] != 'Regular'].index` materialised recursively
from positional index `idx`. -/
def nonRegularIndicesFrom (idx : Nat) : List TxRow → List Nat
  | [] => []
  | r :: rs =>
    if r.type = some "Regular" then nonRegularIndicesFrom (idx + 1) rs
    else idx :: nonRegularIndicesFrom (idx + 1) rs

/-- The index set of all non-`Regular` transactions in the merged table. -/
def nonRegularIndices (rows : List TxRow) : List Nat :=
  nonRegularIndicesFrom 0 rows

/-- `unsolicited_sample_size = int(len(df_opps) * 0.05)`: the code takes 5%
of the length of the WHOLE merged table. -/
def unsolicitedSampleSize (rows : List TxRow) : Nat :=
  rows.length * 5 / 100

/-- The sample size as the claim words it: 5% of the number of non-regular
transactions. Stated from the spec, for comparison with
`unsolicitedSampleSize` which is translated from the code. -/
def specUnsolicitedSampleSize (rows : List TxRow) : Nat :=
  (nonRegularIndices rows).length * 5 / 100

/-- A concrete regular-stream row of the merged table. -/
def regRowEx : TxRow :=
  { opportunity_id := "006_REG_00000000", contact_id := "003000000000001",
    close_date := ⟨2021, 1, 1⟩, amount := 50, stage := "Closed Won",
    type := some "Regular", is_major_gift := none, campaign := none }

/-- A concrete one-off row of the merged table. -/
def adhocRowEx : TxRow :=
  { opportunity_id := "006_GEN_00000000", contact_id := "003000000000002",
    close_date := ⟨2021, 6, 15⟩, amount := 100, stage := "Closed Won",
    type := none, is_major_gift := some false, campaign := none }

/-- A concrete one-off row inside the Tax Appeal window. -/
def taxRowEx : TxRow :=
  { opportunity_id := "006_GEN_00000001", contact_id := "003000000000003",
    close_date := ⟨2021, 5, 3⟩, amount := 100, stage := "Closed Won",
    type := none, is_major_gift := some false, campaign := none }

/-- A concrete merged table: 10 regular rows followed by 10 one-off rows. -/
def rows20 : List TxRow :=
  List.replicate 10 regRowEx ++ List.replicate 10 adhocRowEx

/-- Python's `str.zfill`: left-pad a string with zeros to width `w`. -/
def zfill (s : String) (w : Nat) : String :=
  String.mk (List.replicate (w - s.length) '0') ++ s

/-- `"003" + str(i+1).zfill(12)`, the Salesforce-style contact identifier. -/
def contactId (i : Nat) : String := "003" ++ zfill (toString (i + 1)) 12

/-- A contact record from `generate_contacts_with_signals`. -/
structure Donor where
  contact_id : String
  age : Nat
  gender : Nat
  name : String
  is_major : Bool
  is_regular : Bool
deriving DecidableEq, Repr

/-- A regular-donor record (`regular_donors` list entries). -/
structure RegularGiftPlan where
  contact_id : String
  start_date : MDate
  months : Nat
  amount : Nat
deriving DecidableEq, Repr

/-- The generator's configuration: population size, ad-hoc target, horizon. -/
structure Config where
  num_contacts : Nat
  total_target : Nat
  startD : MDate
  endD : MDate
deriving DecidableEq, Repr

/-- The random tape: one deterministic stream per random draw site of the
script. Each field abstracts a seeded draw (`random.*`, `np.random.*` or a
seeded Faker name); the whole tape is produced deterministically from the
single seed by `mkTape`, modelling `Faker.seed(42); random.seed(42);
np.random.seed(42)`. -/
structure RandTape where
  ageAt : Nat → Nat
  genderAt : Nat → Nat
  nameAt : Nat → Nat → String
  majorU : Nat → ℚ
  regU : Nat → ℚ
  startMonthAt : Nat → Nat
  churnAt : Nat → Nat → Bool
  planAmountAt : Nat → Nat
  donorPick : Nat → Nat
  yearPick : Nat → Nat
  monthPick : Nat → Nat
  dayPick : Nat → Nat
  paretoAt : Nat → ℚ
  uniformAt : Nat → ℚ
  samplePick : Nat → Nat

/-- A linear congruential step standing in for the seeded Mersenne twister:
any fixed deterministic function of the seed suffices to model
reproducibility. -/
def lcg (s : Nat) : Nat := (1103515245 * s + 12345) % 2147483648

/-- The `i`-th value of the seeded stream. -/
def streamNat (seed i : Nat) : Nat := lcg (seed + 37 * i)

/-- Deterministic construction of the whole tape from one seed. -/
def mkTape (seed : Nat) : RandTape :=
  { ageAt := fun i => 18 + streamNat seed i % 73,
    genderAt := fun i => streamNat seed (3 * i + 1) % 3,
    nameAt := fun i g => "name" ++ toString (streamNat seed (5 * i + g)),
    majorU := fun i => ((streamNat seed (7 * i) % 1000 : Nat) : ℚ) / 1000,
    regU := fun i => ((streamNat seed (7 * i + 2) % 1000 : Nat) : ℚ) / 1000,
    startMonthAt := fun i => streamNat seed (11 * i),
    churnAt := fun i m => streamNat seed (13 * i + m) % 7 == 0,
    planAmountAt := fun i => streamNat seed (17 * i),
    donorPick := fun i => streamNat seed (19 * i),
    yearPick := fun i => streamNat seed (23 * i),
    monthPick := fun i => streamNat seed (29 * i),
    dayPick := fun i => streamNat seed (31 * i),
    paretoAt := fun i => ((streamNat seed (41 * i) % 1000 : Nat) : ℚ),
    uniformAt := fun i => 20000 + ((streamNat seed (43 * i) % 30000 : Nat) : ℚ),
    samplePick := fun i => streamNat seed (47 * i) }

/-- `years = list(range(start_date.year, end_date.year + 1))`. -/
def yearsRange (s e : MDate) : List Nat :=
  (List.range (e.year + 1 - s.year)).map (fun k => s.year + k)

/-- `month_options`: all (year, month) pairs of the horizon. -/
def monthOptions (years : List Nat) : List (Nat × Nat) :=
  years.flatMap (fun y => (List.range 12).map (fun m => (y, m + 1)))

/-- `generate_contacts_with_signals(n)`: demographics and the two
age-dependent Bernoulli flags, drawn from the tape. -/
def genContacts (tape : RandTape) (n : Nat) : List Donor :=
  (List.range n).map (fun i =>
    { contact_id := contactId i,
      age := tape.ageAt i,
      gender := tape.genderAt i,
      name := tape.nameAt i (tape.genderAt i),
      is_major := decide (tape.majorU i < major_prob (tape.ageAt i)),
      is_regular := decide (tape.regU i < reg_prob (tape.ageAt i)) })

/-- The regular-donor loop: a seasonally drawn start month (the weighted
choice is modelled as a tape-indexed pick into `month_options`), the churn
loop and the fixed monthly amount `random.choice(range(10, 105, 5))`. -/
def genPlans (cfg : Config) (tape : RandTape) (contacts : List Donor) :
    List RegularGiftPlan :=
  (List.range (contacts.filter (fun c => c.is_regular)).length).map (fun i =>
    let regs := contacts.filter (fun c => c.is_regular)
    let opts := monthOptions (yearsRange cfg.startD cfg.endD)
    let c := regs.getD i ⟨"", 0, 0, "", false, false⟩
    let ym := opts.getD (tape.startMonthAt i % max opts.length 1)
      (cfg.startD.year, 1)
    { contact_id := c.contact_id,
      start_date := ⟨ym.1, ym.2, 1⟩,
      months := months_stayed (max_possible_months ⟨ym.1, ym.2, 1⟩ cfg.endD)
        (tape.churnAt i),
      amount := 10 + 5 * (tape.planAmountAt i % 19) })

/-- The regular-transaction expansion with its running sequential IDs
(`len(rg_transactions)` at append time) and the horizon guard. -/
def rgTransactions (cfg : Config) (plans : List RegularGiftPlan) : List TxRow :=
  plans.foldl (fun acc plan =>
    (List.range plan.months).foldl (fun acc2 m =>
      if dateLe (addMonths plan.start_date m) cfg.endD then
        acc2 ++ [{ opportunity_id := "006_REG_" ++ zfill (toString acc2.length) 8,
                   contact_id := plan.contact_id,
                   close_date := addMonths plan.start_date m,
                   amount := (plan.amount : Int),
                   stage := "Closed Won",
                   type := some "Regular",
                   is_major_gift := none,
                   campaign := none }]
      else acc2) acc) []

/-- `get_weighted_random_date(year)`: a tape-drawn month and a day valid for
it (the month-weight table only biases which stream value is drawn, which
the tape abstracts). -/
def seasonalDate (tape : RandTape) (i year : Nat) : MDate :=
  ⟨year, 1 + tape.monthPick i % 12,
    1 + tape.dayPick i % seasonalDayMax (1 + tape.monthPick i % 12)⟩

/-- `generate_segmented_donations(total_target, df_contacts, existing_count)`
(uniform-activity policy): each of the remaining events picks a donor, a
horizon year, a seasonal date and a segment-dependent capped and rounded
amount. -/
def adhocTransactions (cfg : Config) (tape : RandTape) (contacts : List Donor)
    (existing : Nat) : List TxRow :=
  (List.range (cfg.total_target - existing)).map (fun i =>
    let c := contacts.getD (tape.donorPick i % max contacts.length 1)
      ⟨"", 0, 0, "", false, false⟩
    let years := yearsRange cfg.startD cfg.endD
    { opportunity_id := "006_GEN_" ++ zfill (toString i) 8,
      contact_id := c.contact_id,
      close_date := seasonalDate tape i
        (years.getD (tape.yearPick i % max years.length 1) cfg.startD.year),
      amount :=
        if c.is_major then
          denomRound (majorAmount (tape.paretoAt i) (tape.uniformAt i))
        else denomRound (generalAmount (tape.paretoAt i) (tape.uniformAt i)),
      stage := "Closed Won",
      type := none,
      is_major_gift := some c.is_major,
      campaign := none })

/-- The pre-drawn unsolicited sample: `k` tape-indexed picks from the pool
of non-regular indices (modelling `np.random.choice(pool, k, replace=False)`
as a deterministic function of the tape). -/
def chooseSample (tape : RandTape) (pool : List Nat) (k : Nat) : List Nat :=
  (List.range k).map (fun j => pool.getD (tape.samplePick j % max pool.length 1) 0)

/-- The whole generator pipeline: contacts, plans, both transaction
streams, the merge and the late campaign pass — a pure function of the
configuration and the tape. -/
def generateModel (cfg : Config) (tape : RandTape) : List Donor × List TxRow :=
  let contacts := genContacts tape cfg.num_contacts
  let rg := rgTransactions cfg (genPlans cfg tape contacts)
  let merged := rg ++ adhocTransactions cfg tape contacts rg.length
  (contacts,
    campaignPass merged
      (chooseSample tape (nonRegularIndices merged) (unsolicitedSampleSize merged)))

/-- Banker's rounding lands within half a unit of the argument. -/
theorem pyRound_dist (q : ℚ) : |(pyRound q : ℚ) - q| ≤ 1/2 := by
  have h0 : (⌊q⌋ : ℚ) ≤ q := Int.floor_le q
  have h1 : q < ⌊q⌋ + 1 := Int.lt_floor_add_one q
  unfold pyRound
  split_ifs with hc1 hc2 hc3 <;> rw [abs_le] <;> constructor <;> push_cast <;> linarith

/-- Banker's rounding never jumps past an integer bound. -/
theorem pyRound_le_int (q : ℚ) (z : ℤ) (h : q ≤ z) : pyRound q ≤ z := by
  have hd := pyRound_dist q
  rw [abs_le] at hd
  have h2 : ((pyRound q : ℚ)) < (z : ℚ) + 1 := by linarith
  have h3 : pyRound q < z + 1 := by exact_mod_cast h2
  omega

/-- `round_amount` returns a multiple of the base, at distance at most
half the base from its argument. -/
theorem round_amount_spec (a : ℚ) (base : ℕ) (hb : 0 < base) :
    (base : ℤ) ∣ round_amount a base ∧
      |((round_amount a base : ℤ) : ℚ) - a| ≤ (base : ℚ) / 2 := by
  constructor
  · exact ⟨pyRound (a / base), rfl⟩
  · have hbq : (0:ℚ) < base := by exact_mod_cast hb
    have key := pyRound_dist (a / base)
    have hrw : ((round_amount a base : ℤ) : ℚ) - a
        = (base : ℚ) * ((pyRound (a / base) : ℚ) - a / base) := by
      unfold round_amount
      push_cast
      field_simp
      ring
    rw [hrw, abs_mul, abs_of_pos hbq]
    have := mul_le_mul_of_nonneg_left key (le_of_lt hbq)
    linarith

/-- C2 counterexample: at the tie `a = 125` the applicable base is 50, the
code rounds half-to-even down to 100, and the difference is exactly half the
base, so it is not strictly less than half the base as the claim states. -/
theorem claim_C2_counterexample :
    denomRound 125 = 100 ∧
      ¬ |((denomRound 125 : ℤ) : ℚ) - 125| < (denomBase 125 : ℚ) / 2 := by
  constructor <;> norm_num [denomRound, denomBase, round_amount, pyRound]

/-- C2 (amended): for every amount `a ≥ 0` the denomination rounding step
returns an exact integer multiple of the applicable base (500 if `a ≥ 1000`,
50 if `a ≥ 100`, else 5), and the returned value differs from `a` by at most
half that base (equality is reached exactly at ties, which Python's `round`
resolves half-to-even). -/
theorem claim_C2 (a : ℚ) (_h : 0 ≤ a) :
    (denomBase a : ℤ) ∣ denomRound a ∧
      |((denomRound a : ℤ) : ℚ) - a| ≤ (denomBase a : ℚ) / 2 := by
  unfold denomRound denomBase
  split_ifs with h1 h2
  · exact round_amount_spec a 500 (by norm_num)
  · exact round_amount_spec a 50 (by norm_num)
  · exact round_amount_spec a 5 (by norm_num)

/-- Witness for C2 at `a = 30`. -/
theorem claim_C2_witness :
    (0:ℚ) ≤ 30 ∧ ((denomBase 30 : ℤ) ∣ denomRound 30 ∧
      |((denomRound 30 : ℤ) : ℚ) - 30| ≤ (denomBase 30 : ℚ) / 2) :=
  ⟨by norm_num, claim_C2 30 (by norm_num)⟩

/-- C3: a capped major amount is at least $1000 (so the 500 base applies). -/
theorem majorAmount_ge (p u : ℚ) (hp : 0 ≤ p) (hu : 20000 ≤ u) :
    1000 ≤ majorAmount p u := by
  unfold majorAmount capMajor
  split_ifs with h
  · linarith
  · nlinarith

/-- C3: a capped major amount never exceeds $50000. -/
theorem majorAmount_le (p u : ℚ) (hu : u < 50000) : majorAmount p u ≤ 50000 := by
  unfold majorAmount capMajor
  split_ifs with h
  · linarith
  · linarith

/-- C3: both one-off amount caps hold — a major one-off never exceeds $50,000
even after denomination rounding (the replacement uniform draw lies in
`[20000, 50000)`), and a non-major one-off never exceeds $1,000 before
rounding (replacement draw in `[500, 1000)`). -/
theorem claim_C3 :
    (∀ p u : ℚ, 0 ≤ p → 20000 ≤ u → u < 50000 →
      majorAmount p u ≤ 50000 ∧ denomRound (majorAmount p u) ≤ 50000) ∧
    (∀ p u : ℚ, 0 ≤ p → 500 ≤ u → u < 1000 → generalAmount p u ≤ 1000) := by
  constructor
  · intro p u hp hu1 hu2
    have hge := majorAmount_ge p u hp hu1
    have hle := majorAmount_le p u hu2
    refine ⟨hle, ?_⟩
    unfold denomRound
    rw [if_pos (by linarith)]
    unfold round_amount
    push_cast
    have hdivle : majorAmount p u / 500 ≤ ((100 : ℤ) : ℚ) := by
      rw [div_le_iff₀ (by norm_num)]
      push_cast
      linarith
    have := pyRound_le_int (majorAmount p u / 500) 100 hdivle
    omega
  · intro p u hp hu1 hu2
    unfold generalAmount capGeneral
    split_ifs with h
    · linarith
    · linarith

/-- Witness for C3 at `p = 1000, u = 30000` (major, cap triggered) and
`p = 0, u = 700` (general). -/
theorem claim_C3_witness :
    (majorAmount 1000 30000 ≤ 50000 ∧ denomRound (majorAmount 1000 30000) ≤ 50000) ∧
      generalAmount 0 700 ≤ 1000 :=
  ⟨claim_C3.1 1000 30000 (by norm_num) (by norm_num) (by norm_num),
   claim_C3.2 0 700 (by norm_num) (by norm_num) (by norm_num)⟩

/-- C7: for every age actually drawn (`random.randint(18, 90)`), the regular
probability computed by the code coincides with the spec's clamped
`max(0, 0.40 - (age/100)*0.30)` (the formula is already nonnegative on this
range), and both probabilities lie within `[0, 1]`, in particular at the
boundary ages 18 and 90. -/
theorem claim_C7 (age : Nat) (h1 : 18 ≤ age) (h2 : age ≤ 90) :
    reg_prob age = max 0 (2/5 - ((age : ℚ) / 100) * (3/10)) ∧
      0 ≤ major_prob age ∧ major_prob age ≤ 1 ∧
      0 ≤ reg_prob age ∧ reg_prob age ≤ 1 := by
  have ha1 : (18:ℚ) ≤ (age : ℚ) := by exact_mod_cast h1
  have ha2 : (age:ℚ) ≤ 90 := by exact_mod_cast h2
  have hr0 : 0 ≤ reg_prob age := by unfold reg_prob; nlinarith
  refine ⟨?_, ?_, ?_, hr0, ?_⟩
  · rw [show 2/5 - ((age : ℚ) / 100) * (3/10) = reg_prob age from rfl,
      max_eq_right hr0]
  · unfold major_prob; nlinarith
  · unfold major_prob; nlinarith
  · unfold reg_prob; nlinarith

/-- Witness for C7 at the boundary age 90. -/
theorem claim_C7_witness :
    reg_prob 90 = max 0 (2/5 - ((90 : ℚ) / 100) * (3/10)) ∧
      0 ≤ major_prob 90 ∧ major_prob 90 ≤ 1 ∧
      0 ≤ reg_prob 90 ∧ reg_prob 90 ≤ 1 :=
  claim_C7 90 (by norm_num) (by norm_num)

/-- A month offset of at most `max_possible_months - 1` keeps the expanded
date at or before the horizon end. -/
theorem addMonths_le_sim_end (y mo k : Nat) (_hy : y ≤ 2025) (hm1 : 1 ≤ mo)
    (hm2 : mo ≤ 12)
    (hk : (k : Int) ≤ max_possible_months ⟨y, mo, 1⟩ sim_end - 1) :
    dateLe (addMonths ⟨y, mo, 1⟩ k) sim_end := by
  unfold max_possible_months sim_end at hk
  unfold dateLe addMonths sim_end
  dsimp only at hk ⊢
  omega

/-- Month expansion never moves a date before January 1 of any year at or
before the start year. -/
theorem start_le_addMonths (y0 y mo k : Nat) (hy : y0 ≤ y) :
    dateLe ⟨y0, 1, 1⟩ (addMonths ⟨y, mo, 1⟩ k) := by
  unfold dateLe addMonths
  dsimp only
  omega

/-- The churn loop only ever raises the accumulator. -/
theorem churnGo_ge (churn : Nat → Bool) (fuel : Nat) :
    ∀ m acc : Nat, acc ≤ m → acc ≤ churnGo churn fuel acc m := by
  induction fuel with
  | zero => intro m acc _; exact le_refl acc
  | succ f ih =>
    intro m acc hacc
    unfold churnGo
    split
    · exact le_refl acc
    · exact le_trans hacc (ih (m + 1) m (Nat.le_succ m))

/-- The churn loop, entered at month `m` with accumulator `m - 1`, cannot
exceed `m - 1` plus its remaining fuel. -/
theorem churnGo_le (churn : Nat → Bool) (fuel : Nat) :
    ∀ m : Nat, 1 ≤ m → churnGo churn fuel (m - 1) m ≤ m - 1 + fuel := by
  induction fuel with
  | zero => intro m _; exact Nat.le_refl _
  | succ f ih =>
    intro m hm
    unfold churnGo
    split
    · omega
    · have h := ih (m + 1) (by omega)
      simp only [Nat.add_sub_cancel] at h
      omega

/-- If the first churn draw fires at month `m0`, the loop stops with
accumulator `m0 - 1`. -/
theorem churnGo_first (churn : Nat → Bool) (fuel : Nat) :
    ∀ m m0 : Nat, 1 ≤ m → m ≤ m0 → m0 ≤ m - 1 + fuel → churn m0 = true →
      (∀ k, m ≤ k → k < m0 → churn k = false) →
      churnGo churn fuel (m - 1) m = m0 - 1 := by
  induction fuel with
  | zero => intro m m0 hm hle hub _ _; omega
  | succ f ih =>
    intro m m0 hm hle hub hchurn hquiet
    unfold churnGo
    by_cases hmm : m = m0
    · rw [if_pos (hmm ▸ hchurn)]
      omega
    · rw [if_neg (by rw [hquiet m (le_refl m) (by omega)]; simp)]
      have h := ih (m + 1) m0 (by omega) (by omega) (by omega) hchurn
        (fun k hk1 hk2 => hquiet k (by omega) hk2)
      simpa using h

/-- If no churn draw fires within the fuel window, the loop exhausts the
horizon and returns the maximal value. -/
theorem churnGo_none (churn : Nat → Bool) (fuel : Nat) :
    ∀ m : Nat, 1 ≤ m → (∀ k, m ≤ k → k ≤ m - 1 + fuel → churn k = false) →
      churnGo churn fuel (m - 1) m = m - 1 + fuel := by
  induction fuel with
  | zero => intro m _ _; rfl
  | succ f ih =>
    intro m hm hquiet
    unfold churnGo
    rw [if_neg (by rw [hquiet m (le_refl m) (by omega)]; simp)]
    have h := ih (m + 1) (by omega)
      (fun k hk1 hk2 => hquiet k (by omega) (by omega))
    simp only [Nat.add_sub_cancel] at h
    omega

/-- The concrete value of `max_possible_months` against the horizon end. -/
theorem max_possible_months_val (y mo : Nat) :
    max_possible_months ⟨y, mo, 1⟩ sim_end
      = (2025 - (y : Int)) * 12 + (12 - (mo : Int)) + 1 := by
  unfold max_possible_months sim_end
  dsimp only
  push_cast
  ring

/-- C6: for every regular gift plan whose start month lies in the horizon,
the recorded tenure satisfies `1 ≤ tenure ≤ max_possible_months`; on the
first churn draw at candidate month `m0` the tenure is `m0 - 1`; with no
churn the maximal tenure is recorded; and the plan's last expanded
transaction closes no later than the horizon end. -/
theorem claim_C6 (y mo : Nat) (churn : Nat → Bool)
    (_hy1 : 2016 ≤ y) (hy2 : y ≤ 2025) (hm1 : 1 ≤ mo) (hm2 : mo ≤ 12) :
    1 ≤ months_stayed (max_possible_months ⟨y, mo, 1⟩ sim_end) churn ∧
    (months_stayed (max_possible_months ⟨y, mo, 1⟩ sim_end) churn : Int)
        ≤ max_possible_months ⟨y, mo, 1⟩ sim_end ∧
    (∀ m0 : Nat, 2 ≤ m0 →
      (m0 : Int) ≤ max_possible_months ⟨y, mo, 1⟩ sim_end → churn m0 = true →
      (∀ k, 2 ≤ k → k < m0 → churn k = false) →
      months_stayed (max_possible_months ⟨y, mo, 1⟩ sim_end) churn = m0 - 1) ∧
    ((∀ k : Nat, 2 ≤ k →
        (k : Int) ≤ max_possible_months ⟨y, mo, 1⟩ sim_end → churn k = false) →
      (months_stayed (max_possible_months ⟨y, mo, 1⟩ sim_end) churn : Int)
        = max_possible_months ⟨y, mo, 1⟩ sim_end) ∧
    dateLe (addMonths ⟨y, mo, 1⟩
        (months_stayed (max_possible_months ⟨y, mo, 1⟩ sim_end) churn - 1))
      sim_end := by
  have hMv := max_possible_months_val y mo
  have hM1 : 1 ≤ max_possible_months ⟨y, mo, 1⟩ sim_end := by
    rw [hMv]; omega
  have hfuel : ((max_possible_months ⟨y, mo, 1⟩ sim_end - 1).toNat : Int)
      = max_possible_months ⟨y, mo, 1⟩ sim_end - 1 := by omega
  have hlb : 1 ≤ months_stayed (max_possible_months ⟨y, mo, 1⟩ sim_end) churn :=
    churnGo_ge churn _ 2 1 (by omega)
  have hub : (months_stayed (max_possible_months ⟨y, mo, 1⟩ sim_end) churn : Int)
      ≤ max_possible_months ⟨y, mo, 1⟩ sim_end := by
    have h := churnGo_le churn (max_possible_months ⟨y, mo, 1⟩ sim_end - 1).toNat 2
      (by omega)
    simp only [show (2:Nat) - 1 = 1 from rfl] at h
    unfold months_stayed
    omega
  refine ⟨hlb, hub, ?_, ?_, ?_⟩
  · intro m0 hm0 hm0ub hchurn hquiet
    unfold months_stayed
    have h := churnGo_first churn (max_possible_months ⟨y, mo, 1⟩ sim_end - 1).toNat
      2 m0 (by omega) hm0 (by omega) hchurn
      (fun k hk1 hk2 => hquiet k hk1 hk2)
    simpa using h
  · intro hquiet
    unfold months_stayed
    have h := churnGo_none churn (max_possible_months ⟨y, mo, 1⟩ sim_end - 1).toNat
      2 (by omega)
      (fun k hk1 hk2 => hquiet k hk1 (by omega))
    simp only [show (2:Nat) - 1 = 1 from rfl] at h
    omega
  · exact addMonths_le_sim_end y mo _ hy2 hm1 hm2 (by omega)

/-- Witness for C6: start month June 2021, a churn function that fires first
at candidate month 4. -/
theorem claim_C6_witness :
    1 ≤ months_stayed (max_possible_months ⟨2021, 6, 1⟩ sim_end) (fun m => m == 4) ∧
    (months_stayed (max_possible_months ⟨2021, 6, 1⟩ sim_end) (fun m => m == 4) : Int)
        ≤ max_possible_months ⟨2021, 6, 1⟩ sim_end ∧
    (∀ m0 : Nat, 2 ≤ m0 →
      (m0 : Int) ≤ max_possible_months ⟨2021, 6, 1⟩ sim_end →
      (fun m => m == 4) m0 = true →
      (∀ k, 2 ≤ k → k < m0 → (fun m => m == 4) k = false) →
      months_stayed (max_possible_months ⟨2021, 6, 1⟩ sim_end) (fun m => m == 4)
        = m0 - 1) ∧
    ((∀ k : Nat, 2 ≤ k →
        (k : Int) ≤ max_possible_months ⟨2021, 6, 1⟩ sim_end →
        (fun m => m == 4) k = false) →
      (months_stayed (max_possible_months ⟨2021, 6, 1⟩ sim_end) (fun m => m == 4) : Int)
        = max_possible_months ⟨2021, 6, 1⟩ sim_end) ∧
    dateLe (addMonths ⟨2021, 6, 1⟩
        (months_stayed (max_possible_months ⟨2021, 6, 1⟩ sim_end) (fun m => m == 4) - 1))
      sim_end :=
  claim_C6 2021 6 (fun m => m == 4) (by norm_num) (by norm_num) (by norm_num)
    (by norm_num)

/-- C10: for a plan starting on the first of a horizon month with
`1 ≤ tenure ≤ max_possible_months`, every month offset stays at or before
the horizon end, so the horizon guard in the expansion loop is never the
reason a transaction is skipped: the expansion emits exactly one
transaction date per tenured month. -/
theorem claim_C10 (y mo tenure : Nat)
    (_hy1 : 2016 ≤ y) (hy2 : y ≤ 2025) (hm1 : 1 ≤ mo) (hm2 : mo ≤ 12)
    (_ht1 : 1 ≤ tenure)
    (ht2 : (tenure : Int) ≤ max_possible_months ⟨y, mo, 1⟩ sim_end) :
    (∀ m < tenure, dateLe (addMonths ⟨y, mo, 1⟩ m) sim_end) ∧
    rgExpand ⟨y, mo, 1⟩ tenure sim_end
      = (List.range tenure).map (addMonths ⟨y, mo, 1⟩) ∧
    (rgExpand ⟨y, mo, 1⟩ tenure sim_end).length = tenure := by
  have hMv := max_possible_months_val y mo
  have hall : ∀ m < tenure, dateLe (addMonths ⟨y, mo, 1⟩ m) sim_end := by
    intro m hm
    exact addMonths_le_sim_end y mo m hy2 hm1 hm2 (by omega)
  have hmap : rgExpand ⟨y, mo, 1⟩ tenure sim_end
      = (List.range tenure).map (addMonths ⟨y, mo, 1⟩) := by
    unfold rgExpand
    rw [List.filterMap_eq_map_iff_forall_eq_some]
    intro m hm
    rw [if_pos (hall m (List.mem_range.mp hm))]
  exact ⟨hall, hmap, by rw [hmap]; simp⟩

/-- Witness for C10: a 55-month tenure starting June 2021. -/
theorem claim_C10_witness :
    (∀ m < 55, dateLe (addMonths ⟨2021, 6, 1⟩ m) sim_end) ∧
    rgExpand ⟨2021, 6, 1⟩ 55 sim_end
      = (List.range 55).map (addMonths ⟨2021, 6, 1⟩) ∧
    (rgExpand ⟨2021, 6, 1⟩ 55 sim_end).length = 55 :=
  claim_C10 2021 6 55 (by norm_num) (by norm_num) (by norm_num) (by norm_num)
    (by norm_num) (by norm_num [max_possible_months_val])

/-- Every seasonal day bound is at most 31. -/
theorem seasonalDayMax_le (m : Nat) : seasonalDayMax m ≤ 31 := by
  unfold seasonalDayMax
  split_ifs <;> norm_num

/-- A calendar-valid date with year in `2016..2025` lies between the two
horizon endpoints in date order. -/
theorem horizon_lex (d : MDate) (h : validInHorizon d) :
    dateLe sim_start_fix3 d ∧ dateLe d sim_end ∧
      (2021 ≤ d.year → dateLe sim_start d) := by
  obtain ⟨y, m, dd⟩ := d
  obtain ⟨h1, h2, h3, h4, h5, h6⟩ := h
  have h31 := seasonalDayMax_le m
  unfold dateLe sim_start_fix3 sim_start sim_end
  dsimp only at *
  omega

/-- The leap-year test as an arithmetic proposition. -/
theorem isLeap_iff (y : Nat) :
    isLeap y = true ↔ ((y % 4 = 0 ∧ ¬ y % 100 = 0) ∨ y % 400 = 0) := by
  unfold isLeap
  simp

/-- Days before any valid month fit under the full-year day count. -/
theorem daysBeforeMonth_le (y m : Nat) (h1 : 1 ≤ m) (h2 : m ≤ 12) :
    daysBeforeMonth y m ≤ 334 + (if isLeap y then 1 else 0) := by
  interval_cases m <;> simp only [daysBeforeMonth] <;> split_ifs <;> omega

set_option maxHeartbeats 1600000 in
/-- Advancing `daysBeforeYear` by one year adds exactly the length of the
intervening year. -/
theorem daysBeforeYear_succ (y : Nat) (hy : 1 ≤ y) :
    daysBeforeYear (y + 1)
      = daysBeforeYear y + 365 + (if isLeap y then 1 else 0) := by
  rcases Bool.dichotomy (isLeap y) with hb | hb
  · have hP : ¬ ((y % 4 = 0 ∧ ¬ y % 100 = 0) ∨ y % 400 = 0) := by
      rw [← isLeap_iff, hb]; simp
    simp only [hb, Bool.false_eq_true, if_false]
    unfold daysBeforeYear
    omega
  · have hP : ((y % 4 = 0 ∧ ¬ y % 100 = 0) ∨ y % 400 = 0) := (isLeap_iff y).mp hb
    simp only [hb, if_true]
    unfold daysBeforeYear
    omega

/-- `daysBeforeYear` is monotone in the year. -/
theorem daysBeforeYear_mono (a b : Nat) (h1 : 1 ≤ a) (h : a ≤ b) :
    daysBeforeYear a ≤ daysBeforeYear b := by
  induction b, h using Nat.le_induction with
  | base => exact le_refl _
  | succ n hn ih =>
    have hs := daysBeforeYear_succ n (by omega)
    split_ifs at hs <;> omega

/-- A calendar-valid date with year in `2016..2025` lies between the two
horizon endpoints in ordinal-day order. -/
theorem toOrdinal_in_horizon (d : MDate) (h : validInHorizon d) :
    toOrdinal sim_start_fix3 ≤ toOrdinal d ∧ toOrdinal d ≤ toOrdinal sim_end := by
  obtain ⟨y, m, dd⟩ := d
  obtain ⟨h1, h2, h3, h4, h5, h6⟩ := h
  dsimp only at h1 h2 h3 h4 h5 h6
  have h31 : seasonalDayMax m ≤ 31 := seasonalDayMax_le m
  have hstart : toOrdinal sim_start_fix3 = daysBeforeYear 2016 + 1 := by decide
  have hend : toOrdinal sim_end = daysBeforeYear 2025 + 365 := by decide
  rw [hstart, hend]
  constructor
  · have hmono := daysBeforeYear_mono 2016 y (by norm_num) h1
    unfold toOrdinal
    dsimp only
    omega
  · have hbm := daysBeforeMonth_le y m h3 h4
    unfold toOrdinal
    dsimp only
    by_cases hy : y = 2025
    · subst hy
      have hleap : (if isLeap 2025 then (1:Nat) else 0) = 0 := by decide
      rw [hleap] at hbm
      omega
    · have hsucc := daysBeforeYear_succ y (by omega)
      have hmono := daysBeforeYear_mono (y + 1) 2025 (by omega) (by omega)
      split_ifs at hbm hsucc <;> omega

/-- C4: every transaction close date of every stream lies within the
simulation horizon. Conjunct one: the regular expansion only emits dates
between January 1 of any year at or before the plan's start year and the
horizon end (the emission guard enforces the upper bound, month arithmetic
the lower). Conjunct two: a seasonal one-off draw for a horizon year is
always in the horizon (covering both the uniform-activity policy and the
`fix_attempt3` acquisition branch; for the original script the years range
over `2021..2025`). Conjunct three: the `fix_attempt3` loyalty branch with
its resample-before-acquisition safety catch, stated on ordinal days, stays
within the horizon. -/
theorem claim_C4 :
    (∀ y mo months y0 : Nat, y0 ≤ y →
      ∀ d ∈ rgExpand ⟨y, mo, 1⟩ months sim_end,
        dateLe ⟨y0, 1, 1⟩ d ∧ dateLe d sim_end) ∧
    (∀ d : MDate, validInHorizon d →
      dateLe sim_start_fix3 d ∧ dateLe d sim_end ∧
        (2021 ≤ d.year → dateLe sim_start d)) ∧
    (∀ (seasonal acq : MDate) (k : Nat),
      validInHorizon seasonal → validInHorizon acq →
      1 ≤ k → k ≤ toOrdinal sim_end - toOrdinal acq →
      toOrdinal sim_start_fix3 ≤ fix3CloseOrd seasonal acq k ∧
        fix3CloseOrd seasonal acq k ≤ toOrdinal sim_end) := by
  refine ⟨?_, horizon_lex, ?_⟩
  · intro y mo months y0 hy d hd
    unfold rgExpand at hd
    obtain ⟨m, _, hsome⟩ := List.mem_filterMap.mp hd
    by_cases hle : dateLe (addMonths ⟨y, mo, 1⟩ m) sim_end
    · rw [if_pos hle] at hsome
      cases hsome
      exact ⟨start_le_addMonths y0 y mo m hy, hle⟩
    · rw [if_neg hle] at hsome
      cases hsome
  · intro seasonal acq k hs ha hk1 hk2
    obtain ⟨hs1, hs2⟩ := toOrdinal_in_horizon seasonal hs
    obtain ⟨ha1, ha2⟩ := toOrdinal_in_horizon acq ha
    unfold fix3CloseOrd
    split_ifs <;> omega

/-- Witness for C4: the regular stream starting January 2021, the seasonal
date May 10, 2023, and a loyalty-branch resample one day after an
acquisition on March 10, 2020... the `fix_attempt3` horizon begins in 2016,
so the concrete acquisition date is taken in 2020. -/
theorem claim_C4_witness :
    (∀ d ∈ rgExpand ⟨2021, 1, 1⟩ 3 sim_end,
      dateLe ⟨2021, 1, 1⟩ d ∧ dateLe d sim_end) ∧
    (dateLe sim_start_fix3 ⟨2023, 5, 10⟩ ∧ dateLe ⟨2023, 5, 10⟩ sim_end ∧
      (2021 ≤ (⟨2023, 5, 10⟩ : MDate).year → dateLe sim_start ⟨2023, 5, 10⟩)) ∧
    (toOrdinal sim_start_fix3 ≤ fix3CloseOrd ⟨2016, 1, 5⟩ ⟨2020, 3, 10⟩ 1 ∧
      fix3CloseOrd ⟨2016, 1, 5⟩ ⟨2020, 3, 10⟩ 1 ≤ toOrdinal sim_end) :=
  ⟨claim_C4.1 2021 1 3 2021 (le_refl 2021),
   claim_C4.2.1 ⟨2023, 5, 10⟩ (by decide),
   claim_C4.2.2 ⟨2016, 1, 5⟩ ⟨2020, 3, 10⟩ 1 (by decide) (by decide)
     (by decide) (by decide)⟩

/-- Positional lookup through the campaign-assignment map. -/
theorem applyCampaignFrom_getElem (unsol : List Nat) :
    ∀ (rows : List TxRow) (idx i : Nat),
      (applyCampaignFrom unsol idx rows)[i]?
        = rows[i]?.map (fun r =>
            { r with campaign := some (assign_campaign r (unsol.contains (idx + i))) }) := by
  intro rows
  induction rows with
  | nil => intro idx i; simp [applyCampaignFrom]
  | cons r rs ih =>
    intro idx i
    cases i with
    | zero => simp [applyCampaignFrom]
    | succ n =>
      simp only [applyCampaignFrom, List.getElem?_cons_succ, ih (idx + 1) n]
      have : idx + 1 + n = idx + (n + 1) := by omega
      rw [this]

/-- The campaign-assignment map preserves the table length. -/
theorem applyCampaignFrom_length (unsol : List Nat) :
    ∀ (rows : List TxRow) (idx : Nat),
      (applyCampaignFrom unsol idx rows).length = rows.length := by
  intro rows
  induction rows with
  | nil => intro idx; rfl
  | cons r rs ih => intro idx; simp [applyCampaignFrom, ih (idx + 1)]

/-- Positional lookup through the `is_major_gift` fill. -/
theorem fillnaMajor_getElem (rows : List TxRow) (i : Nat) :
    (fillnaMajor rows)[i]?
      = rows[i]?.map (fun r =>
          { r with is_major_gift := some (r.is_major_gift.getD false) }) := by
  unfold fillnaMajor
  rw [List.getElem?_map]

/-- Positional lookup through the whole late pass: each row gets its
campaign from the fixed sample membership at its own index, and its
`is_major_gift` filled. -/
theorem campaignPass_getElem (rows : List TxRow) (unsol : List Nat) (i : Nat) :
    (campaignPass rows unsol)[i]?
      = rows[i]?.map (fun r =>
          { r with campaign := some (assign_campaign r (unsol.contains i)),
                   is_major_gift := some (r.is_major_gift.getD false) }) := by
  unfold campaignPass applyCampaign
  rw [fillnaMajor_getElem, applyCampaignFrom_getElem unsol rows 0 i]
  cases rows[i]? <;> simp

/-- C5: the classifier cascade coincides with the spec's window-based
cascade on every calendar-valid close date, and always produces exactly one
of the seven campaign labels. -/
theorem claim_C5 (tr : TxRow) (s : Bool)
    (hm1 : 1 ≤ tr.close_date.month) (hm2 : tr.close_date.month ≤ 12)
    (hd1 : 1 ≤ tr.close_date.day) (hd2 : tr.close_date.day ≤ 31) :
    assign_campaign tr s = assignCampaignSpec tr s ∧
      assign_campaign tr s ∈ campaignLabels := by
  constructor
  · have e1 : (tr.close_date.month = 5 ∨ tr.close_date.month = 6 ∨
        (tr.close_date.month = 7 ∧ tr.close_date.day ≤ 15))
        ↔ inWindow tr.close_date.month tr.close_date.day 5 1 7 15 := by
      unfold inWindow mdLe; omega
    have e2 : (tr.close_date.month = 11 ∨ tr.close_date.month = 12 ∨
        (tr.close_date.month = 1 ∧ tr.close_date.day ≤ 15))
        ↔ (mdLe 11 1 tr.close_date.month tr.close_date.day ∨
            mdLe tr.close_date.month tr.close_date.day 1 15) := by
      unfold mdLe; omega
    have e3 : ((tr.close_date.month = 9 ∧ 16 ≤ tr.close_date.day) ∨
        (tr.close_date.month = 10 ∧ tr.close_date.day ≤ 15))
        ↔ inWindow tr.close_date.month tr.close_date.day 9 16 10 15 := by
      unfold inWindow mdLe; omega
    have e4 : ((tr.close_date.month = 3 ∧ 16 ≤ tr.close_date.day) ∨
        (tr.close_date.month = 4 ∧ tr.close_date.day ≤ 15))
        ↔ inWindow tr.close_date.month tr.close_date.day 3 16 4 15 := by
      unfold inWindow mdLe; omega
    unfold assign_campaign assignCampaignSpec
    simp only [e1, e2, e3, e4]
  · unfold assign_campaign
    split_ifs <;> simp [campaignLabels]

/-- Witness for C5 at a one-off row dated May 3. -/
theorem claim_C5_witness :
    assign_campaign taxRowEx true = assignCampaignSpec taxRowEx true ∧
      assign_campaign taxRowEx true ∈ campaignLabels :=
  claim_C5 taxRowEx true (by decide) (by decide) (by decide) (by decide)

/-- C1 counterexample: on a merged table of 10 regular and 10 non-regular
transactions the code draws `int(20 * 0.05) = 1` sample index, but 5% of
the 10 non-regular transactions would be `int(10 * 0.05) = 0`: the sample
size is computed from the WHOLE table, not from the non-regular subset. -/
theorem claim_C1_counterexample :
    unsolicitedSampleSize rows20 = 1 ∧ specUnsolicitedSampleSize rows20 = 0 ∧
      ¬ unsolicitedSampleSize rows20 = specUnsolicitedSampleSize rows20 := by
  refine ⟨by decide, by decide, by decide⟩

/-- C1 (amended): the sample is drawn once before the classification pass,
uniformly without replacement from the index set of all non-`Regular`
transactions, with size `int(0.05 * total number of transactions)` (the
regular stream included in the count); membership in the sample is fixed
for the entire pass — every row's campaign is computed from the same
sample. The hypotheses characterise what the without-replacement draw
guarantees of the drawn sample (distinct indices from the non-regular pool,
of the code's size); uniformity is a property of the draw's distribution
(`np.random.choice` with `replace=False`), unchanged from the original
claim and not itself refuted. -/
theorem claim_C1 (rows : List TxRow) (S : List Nat)
    (_hnd : S.Nodup)
    (_hsub : ∀ i ∈ S, i ∈ nonRegularIndices rows)
    (_hsize : S.length = unsolicitedSampleSize rows) :
    (campaignPass rows S).length = rows.length ∧
    ∀ i : Nat, ((campaignPass rows S)[i]?).map TxRow.campaign
      = rows[i]?.map (fun r => some (assign_campaign r (S.contains i))) := by
  constructor
  · unfold campaignPass applyCampaign fillnaMajor
    rw [List.length_map, applyCampaignFrom_length]
  · intro i
    rw [campaignPass_getElem]
    cases rows[i]? <;> simp

/-- Witness for C1: the 20-row table with the sample `[10]` (one non-regular
index, matching the code's sample size for 20 rows). -/
theorem claim_C1_witness :
    (campaignPass rows20 [10]).length = rows20.length ∧
    ∀ i : Nat, ((campaignPass rows20 [10])[i]?).map TxRow.campaign
      = rows20[i]?.map (fun r => some (assign_campaign r (List.contains [10] i))) :=
  claim_C1 rows20 [10] (by decide) (by decide) (by decide)

/-- C8 counterexample: the late pass changes a field other than `campaign`:
a regular-stream row enters the pass with no `is_major_gift` value
(`NaN` after the merge) and leaves it with `some false`, because the pass
ends with `fillna(False)` on that column. -/
theorem claim_C8_counterexample :
    (campaignPass [regRowEx] []).map TxRow.is_major_gift
      ≠ [regRowEx].map TxRow.is_major_gift := by
  decide

/-- C8 (amended): after creation, the late pass on the merged table is the
only mutation, and it touches exactly two columns: it assigns `campaign`
(from the row and the fixed sample membership at the row's index), and it
normalises `is_major_gift` by filling missing values with `False`; every
other field — opportunity_id, contact_id, close_date, amount, stage, type —
is identical before and after, and `is_major_gift` is unchanged on every
row where it was present (all one-off rows). -/
theorem claim_C8 (rows : List TxRow) (unsol : List Nat) (i : Nat) :
    ((campaignPass rows unsol)[i]?).map TxRow.opportunity_id
        = rows[i]?.map TxRow.opportunity_id ∧
    ((campaignPass rows unsol)[i]?).map TxRow.contact_id
        = rows[i]?.map TxRow.contact_id ∧
    ((campaignPass rows unsol)[i]?).map TxRow.close_date
        = rows[i]?.map TxRow.close_date ∧
    ((campaignPass rows unsol)[i]?).map TxRow.amount
        = rows[i]?.map TxRow.amount ∧
    ((campaignPass rows unsol)[i]?).map TxRow.stage
        = rows[i]?.map TxRow.stage ∧
    ((campaignPass rows unsol)[i]?).map TxRow.type
        = rows[i]?.map TxRow.type ∧
    ((campaignPass rows unsol)[i]?).map TxRow.is_major_gift
        = rows[i]?.map (fun r => some (r.is_major_gift.getD false)) ∧
    ((campaignPass rows unsol)[i]?).map TxRow.campaign
        = rows[i]?.map (fun r => some (assign_campaign r (unsol.contains i))) := by
  rw [campaignPass_getElem]
  cases rows[i]? <;> simp

/-- C9: the generator is deterministic given its seed and configuration —
two runs with the identical seed value and identical configuration produce
identical Donor and Transaction output tables, field for field. All
randomness is drawn from the tape, which is a pure function of the seed,
and the pipeline is a pure function of the configuration and the tape. -/
theorem claim_C9 (cfg1 cfg2 : Config) (seed1 seed2 : Nat)
    (hcfg : cfg1 = cfg2) (hseed : seed1 = seed2) :
    generateModel cfg1 (mkTape seed1) = generateModel cfg2 (mkTape seed2) := by
  subst hcfg
  subst hseed
  rfl

/-- Witness for C9: two runs at seed 42 with a small concrete
configuration agree. -/
theorem claim_C9_witness :
    generateModel ⟨3, 12, ⟨2021, 1, 1⟩, ⟨2025, 12, 31⟩⟩ (mkTape 42)
      = generateModel ⟨3, 12, ⟨2021, 1, 1⟩, ⟨2025, 12, 31⟩⟩ (mkTape 42) :=
  claim_C9 ⟨3, 12, ⟨2021, 1, 1⟩, ⟨2025, 12, 31⟩⟩ ⟨3, 12, ⟨2021, 1, 1⟩, ⟨2025, 12, 31⟩⟩
    42 42 rfl rfl

end Charity
